import Mathlib

/-!
Verification of the goformation CloudFormation resource envelope codec
(`DeploymentGroup.MarshalJSON` / `DeploymentGroup.UnmarshalJSON` in
`cloudformation/codedeploy`, and the plain property-subtype structs
`glue.MLTransform_InputRecordTables` and `ecs.Service_DeploymentController`).

The Go code is embedded shallowly: JSON documents are modelled by the
inductive `Json`; Go `encoding/json` struct (un)marshalling is modelled by
explicit Lean functions that mirror the relevant stdlib semantics:
  * struct fields are matched against object keys preferring an exact match
    but also accepting an ASCII case-insensitive match (documented behaviour
    of `encoding/json.Unmarshal`);
  * `json.Decoder.DisallowUnknownFields` makes a key that matches no
    non-ignored field a decode error;
  * `omitempty` omits nil pointers, empty slices/maps and empty strings;
  * JSON `null` sets pointers/slices/maps to nil and leaves strings unchanged.
-/

namespace GoFormation

/-- A JSON document.  Objects are ordered association lists (Go's decoder
processes members in document order; duplicates are processed sequentially). -/
inductive Json where
  | null
  | bool (b : Bool)
  | num (n : Int)
  | str (s : String)
  | arr (elems : List Json)
  | obj (members : List (String × Json))

/-- The keys of a JSON object (empty for non-objects). -/
def Json.keys : Json → List String
  | .obj ms => ms.map Prod.fst
  | _ => []

/-- First member of a JSON object with the given (exact) key. -/
def Json.lookupKey (j : Json) (k : String) : Option Json :=
  match j with
  | .obj ms => ms.lookup k
  | _ => none

/-- ASCII lower-casing of a character code. -/
def lowerNat (n : Nat) : Nat := if 65 ≤ n ∧ n ≤ 90 then n + 32 else n

/-- ASCII case-insensitive string comparison, as used by `encoding/json`
when matching object keys to struct field names. -/
def eqCI (a b : String) : Bool :=
  a.data.map (fun c => lowerNat c.toNat) == b.data.map (fun c => lowerNat c.toNat)

/-- Errors produced by the modelled decoder: `unknownField` corresponds to
the error raised by `DisallowUnknownFields`, `typeError` to
`json.UnmarshalTypeError`, `notObject` to attempting to decode a non-object
into the envelope struct. -/
inductive DecodeError where
  | unknownField (key : String)
  | typeError (fld : String)
  | notObject
deriving DecidableEq, Repr

/-- Embedding of the Go struct `codedeploy.DeploymentGroup`
(src/goformation/cloudformation/cognito/…_notifyconfigurationtype.go,
lines 77–178), fields in source order.

Modelled from the spec: the schema types of the seventeen property fields
(`*types.Value`, the `DeploymentGroup_*` sub-structs and slices thereof) are
not part of the provided sources; per the spec they are "loosely-typed
property bags" whose codec round-trips losslessly, so a pointer-typed
property is held as an opaque `Option Json` payload and a slice-typed
property as an `Option (List Json)` (`none` = Go nil).  The five
`AWSCloudFormation*` envelope fields are tagged `json:"-"` in the source and
so never participate in (un)marshalling of the `Properties` object. -/
structure DeploymentGroup where
  AlarmConfiguration : Option Json := none
  ApplicationName : Option Json := none
  AutoRollbackConfiguration : Option Json := none
  AutoScalingGroups : Option Json := none
  BlueGreenDeploymentConfiguration : Option Json := none
  Deployment : Option Json := none
  DeploymentConfigName : Option Json := none
  DeploymentGroupName : Option Json := none
  DeploymentStyle : Option Json := none
  ECSServices : Option (List Json) := none
  Ec2TagFilters : Option (List Json) := none
  Ec2TagSet : Option Json := none
  LoadBalancerInfo : Option Json := none
  OnPremisesInstanceTagFilters : Option (List Json) := none
  OnPremisesTagSet : Option Json := none
  ServiceRoleArn : Option Json := none
  TriggerConfigurations : Option (List Json) := none
  AWSCloudFormationDeletionPolicy : String := ""
  AWSCloudFormationUpdateReplacePolicy : String := ""
  AWSCloudFormationDependsOn : List String := []
  AWSCloudFormationMetadata : List (String × Json) := []
  AWSCloudFormationCondition : String := ""

/-- The zero value `DeploymentGroup{}`, as produced by the registry factory. -/
def DeploymentGroup.new : DeploymentGroup := {}

/-- `AWSCloudFormationType` for `DeploymentGroup`. -/
def DeploymentGroup.AWSCloudFormationType : String :=
  "AWS::CodeDeploy::DeploymentGroup"

/-- One member for a pointer-typed struct field with `omitempty`: omitted
exactly when the pointer is nil. -/
def optMember (k : String) : Option Json → List (String × Json)
  | none => []
  | some j => [(k, j)]

/-- One member for a slice-typed struct field with `omitempty`: omitted when
the slice is nil or empty (Go's `omitempty` tests `len == 0`). -/
def listMember (k : String) : Option (List Json) → List (String × Json)
  | some (x :: xs) => [(k, Json.arr (x :: xs))]
  | _ => []

/-- The `DependsOn []string` member with `omitempty`. -/
def depMember (d : List String) : List (String × Json) :=
  match d with
  | [] => []
  | d => [("DependsOn", Json.arr (d.map Json.str))]

/-- The `Metadata map[string]interface{}` member with `omitempty`. -/
def metaMember (m : List (String × Json)) : List (String × Json) :=
  match m with
  | [] => []
  | m => [("Metadata", Json.obj m)]

/-- A `string` member with `omitempty` (the two policies and `Condition`). -/
def strMember (k s : String) : List (String × Json) :=
  if s = "" then [] else [(k, Json.str s)]

/-- Marshalling of the `Properties` object: the default `encoding/json`
encoding of `type Properties DeploymentGroup` — each property field with its
tag and `omitempty`, in struct order; the `json:"-"` envelope fields are
skipped. -/
def DeploymentGroup.marshalProperties (r : DeploymentGroup) : List (String × Json) :=
  optMember "AlarmConfiguration" r.AlarmConfiguration ++
  optMember "ApplicationName" r.ApplicationName ++
  optMember "AutoRollbackConfiguration" r.AutoRollbackConfiguration ++
  optMember "AutoScalingGroups" r.AutoScalingGroups ++
  optMember "BlueGreenDeploymentConfiguration" r.BlueGreenDeploymentConfiguration ++
  optMember "Deployment" r.Deployment ++
  optMember "DeploymentConfigName" r.DeploymentConfigName ++
  optMember "DeploymentGroupName" r.DeploymentGroupName ++
  optMember "DeploymentStyle" r.DeploymentStyle ++
  listMember "ECSServices" r.ECSServices ++
  listMember "Ec2TagFilters" r.Ec2TagFilters ++
  optMember "Ec2TagSet" r.Ec2TagSet ++
  optMember "LoadBalancerInfo" r.LoadBalancerInfo ++
  listMember "OnPremisesInstanceTagFilters" r.OnPremisesInstanceTagFilters ++
  optMember "OnPremisesTagSet" r.OnPremisesTagSet ++
  optMember "ServiceRoleArn" r.ServiceRoleArn ++
  listMember "TriggerConfigurations" r.TriggerConfigurations

/-- `DeploymentGroup.MarshalJSON` (source lines 187–206): wraps the
properties under `Properties` next to a constant `Type` and the five
envelope fields, each of the latter with `omitempty` (nil/empty slice and
map, empty string omitted); `Type` and `Properties` carry no `omitempty`
and are always emitted. -/
def DeploymentGroup.MarshalJSON (r : DeploymentGroup) : Json :=
  Json.obj
    ([("Type", Json.str DeploymentGroup.AWSCloudFormationType),
      ("Properties", Json.obj r.marshalProperties)] ++
     depMember r.AWSCloudFormationDependsOn ++
     metaMember r.AWSCloudFormationMetadata ++
     strMember "DeletionPolicy" r.AWSCloudFormationDeletionPolicy ++
     strMember "UpdateReplacePolicy" r.AWSCloudFormationUpdateReplacePolicy ++
     strMember "Condition" r.AWSCloudFormationCondition)

/-- The seven fields of the anonymous envelope struct `res` inside
`DeploymentGroup.UnmarshalJSON` (source lines 212–220). -/
inductive EnvField where
  | type | properties | dependsOn | metadata
  | deletionPolicy | updateReplacePolicy | condition
deriving DecidableEq, Repr

/-- Go field name of an envelope field (none of them carries a json tag). -/
def EnvField.name : EnvField → String
  | .type => "Type"
  | .properties => "Properties"
  | .dependsOn => "DependsOn"
  | .metadata => "Metadata"
  | .deletionPolicy => "DeletionPolicy"
  | .updateReplacePolicy => "UpdateReplacePolicy"
  | .condition => "Condition"

/-- Key-to-field matching of `encoding/json`: an object key selects the
struct field whose name it matches, case-insensitively (exact matches are
preferred by Go, but no two envelope field names collide case-insensitively,
so the preference is immaterial here). -/
def matchEnvField (k : String) : Option EnvField :=
  if eqCI k "Type" then some .type
  else if eqCI k "Properties" then some .properties
  else if eqCI k "DependsOn" then some .dependsOn
  else if eqCI k "Metadata" then some .metadata
  else if eqCI k "DeletionPolicy" then some .deletionPolicy
  else if eqCI k "UpdateReplacePolicy" then some .updateReplacePolicy
  else if eqCI k "Condition" then some .condition
  else none

/-- Unmarshalling a JSON value into a Go `string` field: a JSON string
replaces the value, JSON `null` leaves it unchanged, anything else is an
`UnmarshalTypeError`. -/
def decodeGoString (fld : String) (cur : String) : Json → Except DecodeError String
  | .str s => .ok s
  | .null => .ok cur
  | _ => .error (.typeError fld)

/-- Modelled from the spec: unmarshalling into one of the opaque property
payloads (`*types.Value` or a `*DeploymentGroup_*` sub-struct, whose
declarations are not in the provided sources).  Per the spec these bags
round-trip losslessly, so the payload is stored verbatim; JSON `null` sets
the pointer to nil. -/
def decodeOpaque : Json → Option Json
  | .null => none
  | j => some j

/-- Unmarshalling into a slice of opaque property payloads
(`[]DeploymentGroup_*`): a JSON array is taken element-wise, `null` sets the
slice to nil, anything else is an `UnmarshalTypeError`. -/
def decodeJsonList (fld : String) : Json → Except DecodeError (Option (List Json))
  | .arr xs => .ok (some xs)
  | .null => .ok none
  | _ => .error (.typeError fld)

/-- Unmarshalling a list of JSON values into `[]string` elements. -/
def decodeStringElems (fld : String) : List Json → Except DecodeError (List String)
  | [] => .ok []
  | .str s :: rest => (decodeStringElems fld rest).map (s :: ·)
  | _ :: _ => .error (.typeError fld)

/-- Unmarshalling into the `DependsOn []string` field: a JSON array of
strings, or `null` for nil; a bare string (or any non-array) is an
`UnmarshalTypeError`. -/
def decodeDependsOn : Json → Except DecodeError (Option (List String))
  | .arr xs => (decodeStringElems "DependsOn" xs).map some
  | .null => .ok none
  | _ => .error (.typeError "DependsOn")

/-- Unmarshalling into the `Metadata map[string]interface{}` field: a JSON
object kept verbatim, or `null` for nil. -/
def decodeMetadata : Json → Except DecodeError (Option (List (String × Json)))
  | .obj ms => .ok (some ms)
  | .null => .ok none
  | _ => .error (.typeError "Metadata")

/-- One member of the `Properties` object, decoded into
`type Properties DeploymentGroup`: the key is matched (case-insensitively)
against the seventeen property-field json tags; the `json:"-"` envelope
fields are ignored fields and never match, so with `DisallowUnknownFields`
in force any other key is an unknown-field error. -/
def stepProperty (p : DeploymentGroup) (kv : String × Json) : Except DecodeError DeploymentGroup :=
  if eqCI kv.1 "AlarmConfiguration" then .ok { p with AlarmConfiguration := decodeOpaque kv.2 }
  else if eqCI kv.1 "ApplicationName" then .ok { p with ApplicationName := decodeOpaque kv.2 }
  else if eqCI kv.1 "AutoRollbackConfiguration" then .ok { p with AutoRollbackConfiguration := decodeOpaque kv.2 }
  else if eqCI kv.1 "AutoScalingGroups" then .ok { p with AutoScalingGroups := decodeOpaque kv.2 }
  else if eqCI kv.1 "BlueGreenDeploymentConfiguration" then .ok { p with BlueGreenDeploymentConfiguration := decodeOpaque kv.2 }
  else if eqCI kv.1 "Deployment" then .ok { p with Deployment := decodeOpaque kv.2 }
  else if eqCI kv.1 "DeploymentConfigName" then .ok { p with DeploymentConfigName := decodeOpaque kv.2 }
  else if eqCI kv.1 "DeploymentGroupName" then .ok { p with DeploymentGroupName := decodeOpaque kv.2 }
  else if eqCI kv.1 "DeploymentStyle" then .ok { p with DeploymentStyle := decodeOpaque kv.2 }
  else if eqCI kv.1 "ECSServices" then (decodeJsonList "ECSServices" kv.2).map (fun v => { p with ECSServices := v })
  else if eqCI kv.1 "Ec2TagFilters" then (decodeJsonList "Ec2TagFilters" kv.2).map (fun v => { p with Ec2TagFilters := v })
  else if eqCI kv.1 "Ec2TagSet" then .ok { p with Ec2TagSet := decodeOpaque kv.2 }
  else if eqCI kv.1 "LoadBalancerInfo" then .ok { p with LoadBalancerInfo := decodeOpaque kv.2 }
  else if eqCI kv.1 "OnPremisesInstanceTagFilters" then (decodeJsonList "OnPremisesInstanceTagFilters" kv.2).map (fun v => { p with OnPremisesInstanceTagFilters := v })
  else if eqCI kv.1 "OnPremisesTagSet" then .ok { p with OnPremisesTagSet := decodeOpaque kv.2 }
  else if eqCI kv.1 "ServiceRoleArn" then .ok { p with ServiceRoleArn := decodeOpaque kv.2 }
  else if eqCI kv.1 "TriggerConfigurations" then (decodeJsonList "TriggerConfigurations" kv.2).map (fun v => { p with TriggerConfigurations := v })
  else .error (.unknownField kv.1)

/-- Decoding the members of a `Properties` object in document order into a
fresh `Properties` value (whose envelope fields stay at their zero values). -/
def decodeProperties (p : DeploymentGroup) : List (String × Json) → Except DecodeError DeploymentGroup
  | [] => .ok p
  | kv :: rest =>
    match stepProperty p kv with
    | .ok p' => decodeProperties p' rest
    | .error e => .error e

/-- State of the anonymous `res` struct during decoding: `Option` on the
pointer/slice/map fields distinguishes Go nil from a decoded (possibly
empty) value — the tail of `UnmarshalJSON` branches on exactly that. -/
structure ResEnvelope where
  type : String := ""
  properties : Option DeploymentGroup := none
  dependsOn : Option (List String) := none
  metadata : Option (List (String × Json)) := none
  deletionPolicy : String := ""
  updateReplacePolicy : String := ""
  condition : String := ""

/-- Decoding one top-level member of the resource object into `res`.  A key
matching no envelope field is rejected — that is `DisallowUnknownFields`
(source line 223). -/
def stepEnvelope (st : ResEnvelope) (kv : String × Json) : Except DecodeError ResEnvelope :=
  match matchEnvField kv.1 with
  | some .type => (decodeGoString "Type" st.type kv.2).map (fun s => { st with type := s })
  | some .properties =>
    match kv.2 with
    | .obj ms => (decodeProperties {} ms).map (fun p => { st with properties := some p })
    | .null => .ok { st with properties := none }
    | _ => .error (.typeError "Properties")
  | some .dependsOn => (decodeDependsOn kv.2).map (fun d => { st with dependsOn := d })
  | some .metadata => (decodeMetadata kv.2).map (fun m => { st with metadata := m })
  | some .deletionPolicy => (decodeGoString "DeletionPolicy" st.deletionPolicy kv.2).map (fun s => { st with deletionPolicy := s })
  | some .updateReplacePolicy => (decodeGoString "UpdateReplacePolicy" st.updateReplacePolicy kv.2).map (fun s => { st with updateReplacePolicy := s })
  | some .condition => (decodeGoString "Condition" st.condition kv.2).map (fun s => { st with condition := s })
  | none => .error (.unknownField kv.1)

/-- Decoding all top-level members in document order. -/
def decodeEnvFields (st : ResEnvelope) : List (String × Json) → Except DecodeError ResEnvelope
  | [] => .ok st
  | kv :: rest =>
    match stepEnvelope st kv with
    | .ok st' => decodeEnvFields st' rest
    | .error e => .error e

/-- The tail of `DeploymentGroup.UnmarshalJSON` (source lines 230–249),
applying the decoded `res` struct to receiver `r`:
  * if `Properties` was present, replace the whole receiver by the decoded
    properties value (`*r = DeploymentGroup(*res.Properties)` — envelope
    fields of the receiver are thereby zeroed, since the decoded
    `Properties` value has zero envelope fields);
  * overwrite `DependsOn`/`Metadata` only when the decoded slice/map is
    non-nil, and each policy/condition string only when non-empty. -/
def applyRes (r : DeploymentGroup) (res : ResEnvelope) : DeploymentGroup :=
  let r1 := match res.properties with
    | some p => p
    | none => r
  let r2 := match res.dependsOn with
    | some d => { r1 with AWSCloudFormationDependsOn := d }
    | none => r1
  let r3 := match res.metadata with
    | some m => { r2 with AWSCloudFormationMetadata := m }
    | none => r2
  let r4 := if res.deletionPolicy = "" then r3
    else { r3 with AWSCloudFormationDeletionPolicy := res.deletionPolicy }
  let r5 := if res.updateReplacePolicy = "" then r4
    else { r4 with AWSCloudFormationUpdateReplacePolicy := res.updateReplacePolicy }
  if res.condition = "" then r5
  else { r5 with AWSCloudFormationCondition := res.condition }

/-- `DeploymentGroup.UnmarshalJSON` (source lines 210–250), acting on
receiver `r`: decode the envelope struct strictly, then apply it to the
receiver (`applyRes`).  A non-object input is an `UnmarshalTypeError`.
(The Go code would nil-panic on the literal JSON `null`; that crash is not
modelled — `null` is mapped to the same `notObject` error as other
non-objects.) -/
def DeploymentGroup.UnmarshalJSON (r : DeploymentGroup) (j : Json) : Except DecodeError DeploymentGroup :=
  match j with
  | .obj ms =>
    match decodeEnvFields {} ms with
    | .error e => .error e
    | .ok res => .ok (applyRes r res)
  | _ => .error .notObject

/-- What survives a marshal/unmarshal round trip of a pointer-typed
property: a payload that marshals to literal `null` comes back as a nil
pointer; everything else is preserved. -/
def normalizeOpt : Option Json → Option Json
  | some .null => none
  | some j => some j
  | none => none

/-- What survives a round trip of a slice-typed property: an empty non-nil
slice is omitted by `omitempty` and comes back nil. -/
def normalizeList : Option (List Json) → Option (List Json)
  | some [] => none
  | some (x :: xs) => some (x :: xs)
  | none => none

/-- The `Properties` part of a resource — the cast `(Properties)(r)` as it
appears after a decode, i.e. with the `json:"-"` envelope fields at their
zero values. -/
def DeploymentGroup.properties (r : DeploymentGroup) : DeploymentGroup :=
  { AlarmConfiguration := r.AlarmConfiguration
    ApplicationName := r.ApplicationName
    AutoRollbackConfiguration := r.AutoRollbackConfiguration
    AutoScalingGroups := r.AutoScalingGroups
    BlueGreenDeploymentConfiguration := r.BlueGreenDeploymentConfiguration
    Deployment := r.Deployment
    DeploymentConfigName := r.DeploymentConfigName
    DeploymentGroupName := r.DeploymentGroupName
    DeploymentStyle := r.DeploymentStyle
    ECSServices := r.ECSServices
    Ec2TagFilters := r.Ec2TagFilters
    Ec2TagSet := r.Ec2TagSet
    LoadBalancerInfo := r.LoadBalancerInfo
    OnPremisesInstanceTagFilters := r.OnPremisesInstanceTagFilters
    OnPremisesTagSet := r.OnPremisesTagSet
    ServiceRoleArn := r.ServiceRoleArn
    TriggerConfigurations := r.TriggerConfigurations }

/-- The value obtained by decoding the marshalled `Properties` object of
`r`: every property normalized, envelope fields zero. -/
def DeploymentGroup.decodedProperties (r : DeploymentGroup) : DeploymentGroup :=
  { AlarmConfiguration := normalizeOpt r.AlarmConfiguration
    ApplicationName := normalizeOpt r.ApplicationName
    AutoRollbackConfiguration := normalizeOpt r.AutoRollbackConfiguration
    AutoScalingGroups := normalizeOpt r.AutoScalingGroups
    BlueGreenDeploymentConfiguration := normalizeOpt r.BlueGreenDeploymentConfiguration
    Deployment := normalizeOpt r.Deployment
    DeploymentConfigName := normalizeOpt r.DeploymentConfigName
    DeploymentGroupName := normalizeOpt r.DeploymentGroupName
    DeploymentStyle := normalizeOpt r.DeploymentStyle
    ECSServices := normalizeList r.ECSServices
    Ec2TagFilters := normalizeList r.Ec2TagFilters
    Ec2TagSet := normalizeOpt r.Ec2TagSet
    LoadBalancerInfo := normalizeOpt r.LoadBalancerInfo
    OnPremisesInstanceTagFilters := normalizeList r.OnPremisesInstanceTagFilters
    OnPremisesTagSet := normalizeOpt r.OnPremisesTagSet
    ServiceRoleArn := normalizeOpt r.ServiceRoleArn
    TriggerConfigurations := normalizeList r.TriggerConfigurations }

/-- The exact result of `UnmarshalJSON` on the output of `MarshalJSON`:
properties normalized, envelope fields restored from the (omitempty)
envelope members. -/
def DeploymentGroup.roundtrip (r : DeploymentGroup) : DeploymentGroup :=
  { r.decodedProperties with
    AWSCloudFormationDeletionPolicy := r.AWSCloudFormationDeletionPolicy
    AWSCloudFormationUpdateReplacePolicy := r.AWSCloudFormationUpdateReplacePolicy
    AWSCloudFormationDependsOn := r.AWSCloudFormationDependsOn
    AWSCloudFormationMetadata := r.AWSCloudFormationMetadata
    AWSCloudFormationCondition := r.AWSCloudFormationCondition }

/-- A populated pointer-typed property: non-nil, and not a payload that
marshals to literal `null` (none of the schema types in the source marshal a
non-nil pointer to `null`). -/
def populatedOpt : Option Json → Bool
  | some .null => false
  | some _ => true
  | none => false

/-- A populated slice-typed property: non-nil and non-empty. -/
def populatedList : Option (List Json) → Bool
  | some (_ :: _) => true
  | _ => false

/-- All optional properties and all envelope fields of `r` populated, as in
the round-trip law of the spec. -/
@[reducible] def DeploymentGroup.fullyPopulated (r : DeploymentGroup) : Prop :=
  populatedOpt r.AlarmConfiguration = true ∧
  populatedOpt r.ApplicationName = true ∧
  populatedOpt r.AutoRollbackConfiguration = true ∧
  populatedOpt r.AutoScalingGroups = true ∧
  populatedOpt r.BlueGreenDeploymentConfiguration = true ∧
  populatedOpt r.Deployment = true ∧
  populatedOpt r.DeploymentConfigName = true ∧
  populatedOpt r.DeploymentGroupName = true ∧
  populatedOpt r.DeploymentStyle = true ∧
  populatedList r.ECSServices = true ∧
  populatedList r.Ec2TagFilters = true ∧
  populatedOpt r.Ec2TagSet = true ∧
  populatedOpt r.LoadBalancerInfo = true ∧
  populatedList r.OnPremisesInstanceTagFilters = true ∧
  populatedOpt r.OnPremisesTagSet = true ∧
  populatedOpt r.ServiceRoleArn = true ∧
  populatedList r.TriggerConfigurations = true ∧
  r.AWSCloudFormationDeletionPolicy ≠ "" ∧
  r.AWSCloudFormationUpdateReplacePolicy ≠ "" ∧
  r.AWSCloudFormationDependsOn.isEmpty = false ∧
  r.AWSCloudFormationMetadata.isEmpty = false ∧
  r.AWSCloudFormationCondition ≠ ""

/-- Embedding of the Go struct `ecs.Service_DeploymentController`
(src/pkg/ctl/cmdutils/cmdutils.go, appended part, lines 262–283).  It has no
custom (un)marshalling hooks: the default `encoding/json` semantics apply,
so only the `Type` property participates in JSON, the five envelope fields
being tagged `json:"-"`. -/
structure Service_DeploymentController where
  «Type» : Option Json := none
  AWSCloudFormationDeletionPolicy : String := ""
  AWSCloudFormationUpdateReplacePolicy : String := ""
  AWSCloudFormationDependsOn : List String := []
  AWSCloudFormationMetadata : List (String × Json) := []
  AWSCloudFormationCondition : String := ""

/-- Default `json.Marshal` of `Service_DeploymentController`: only the
`Type,omitempty` member; the `json:"-"` fields are skipped. -/
def Service_DeploymentController.MarshalJSON (r : Service_DeploymentController) : Json :=
  Json.obj (optMember "Type" r.«Type»)

/-- One member decoded into `Service_DeploymentController` by the default
`json.Unmarshal`: a key matching `Type` (case-insensitively) sets the field;
any other key matches no non-ignored field and is silently dropped (without
`DisallowUnknownFields` the default decoder ignores unknown keys; with it
in force such a key would error — under neither semantics is an envelope
field ever written, since `json:"-"` fields never match). -/
def Service_DeploymentController.step (r : Service_DeploymentController)
    (kv : String × Json) : Service_DeploymentController :=
  if eqCI kv.1 "Type" then { r with «Type» := decodeOpaque kv.2 } else r

/-- Default `json.Unmarshal` into `Service_DeploymentController`. -/
def Service_DeploymentController.UnmarshalJSON (r : Service_DeploymentController)
    (j : Json) : Except DecodeError Service_DeploymentController :=
  match j with
  | .obj ms => .ok (ms.foldl Service_DeploymentController.step r)
  | .null => .ok r
  | _ => .error .notObject

/-- Embedding of the Go struct `glue.MLTransform_InputRecordTables`
(src/unnamed/part_000, lines 9–30): one slice-typed property `GlueTables`
plus the five `json:"-"` envelope fields. -/
structure MLTransform_InputRecordTables where
  GlueTables : Option (List Json) := none
  AWSCloudFormationDeletionPolicy : String := ""
  AWSCloudFormationUpdateReplacePolicy : String := ""
  AWSCloudFormationDependsOn : List String := []
  AWSCloudFormationMetadata : List (String × Json) := []
  AWSCloudFormationCondition : String := ""

/-- Default `json.Marshal` of `MLTransform_InputRecordTables`. -/
def MLTransform_InputRecordTables.MarshalJSON (r : MLTransform_InputRecordTables) : Json :=
  Json.obj (listMember "GlueTables" r.GlueTables)

/-- One member decoded into `MLTransform_InputRecordTables` by the default
`json.Unmarshal`; unmarshalling a non-array into the slice field is an
`UnmarshalTypeError`. -/
def MLTransform_InputRecordTables.step (r : MLTransform_InputRecordTables)
    (kv : String × Json) : Except DecodeError MLTransform_InputRecordTables :=
  if eqCI kv.1 "GlueTables" then
    (decodeJsonList "GlueTables" kv.2).map (fun v => { r with GlueTables := v })
  else .ok r

/-- Members of an object decoded into `MLTransform_InputRecordTables` in
document order. -/
def MLTransform_InputRecordTables.decodeMembers (r : MLTransform_InputRecordTables) :
    List (String × Json) → Except DecodeError MLTransform_InputRecordTables
  | [] => .ok r
  | kv :: rest =>
    match MLTransform_InputRecordTables.step r kv with
    | .ok r' => MLTransform_InputRecordTables.decodeMembers r' rest
    | .error e => .error e

/-- Default `json.Unmarshal` into `MLTransform_InputRecordTables`. -/
def MLTransform_InputRecordTables.UnmarshalJSON (r : MLTransform_InputRecordTables)
    (j : Json) : Except DecodeError MLTransform_InputRecordTables :=
  match j with
  | .obj ms => MLTransform_InputRecordTables.decodeMembers r ms
  | .null => .ok r
  | _ => .error .notObject

/-- The five envelope attribute keys shared by every resource variant. -/
def envelopeAttributeKeys : List String :=
  ["DeletionPolicy", "UpdateReplacePolicy", "DependsOn", "Metadata", "Condition"]

/-- Effect on a pointer-typed property of one decoded member: `none` (member
absent) keeps the current value, a present member stores the payload
(`null` resets to nil). -/
def updOpt (o : Option Json) (cur : Option Json) : Option Json :=
  match o with
  | none => cur
  | some j => decodeOpaque j

/-- Effect on a slice-typed property of one decoded member produced by
`listMember` (which omits nil and empty slices). -/
def updList (o : Option (List Json)) (cur : Option (List Json)) : Option (List Json) :=
  match o with
  | some (x :: xs) => some (x :: xs)
  | _ => cur

/-- Effect on `res.DependsOn` of the member produced by `depMember`. -/
def updDep (d : List String) (cur : Option (List String)) : Option (List String) :=
  match d with
  | [] => cur
  | d => some d

/-- Effect on `res.Metadata` of the member produced by `metaMember`. -/
def updMeta (m : List (String × Json)) (cur : Option (List (String × Json))) :
    Option (List (String × Json)) :=
  match m with
  | [] => cur
  | m => some m

/-- Effect on a `res` string field of the member produced by `strMember`. -/
def updStr (s cur : String) : String :=
  if s = "" then cur else s

/-- A fully populated sample resource. -/
def sampleDeploymentGroup : DeploymentGroup := {
  AlarmConfiguration := some (Json.obj [("Alarms", Json.arr [Json.obj [("Name", Json.str "a")]])])
  ApplicationName := some (Json.str "app")
  AutoRollbackConfiguration := some (Json.obj [("Enabled", Json.bool true)])
  AutoScalingGroups := some (Json.arr [Json.str "asg"])
  BlueGreenDeploymentConfiguration := some (Json.obj [])
  Deployment := some (Json.obj [("Description", Json.str "d")])
  DeploymentConfigName := some (Json.str "cfg")
  DeploymentGroupName := some (Json.str "dg")
  DeploymentStyle := some (Json.obj [("DeploymentType", Json.str "BLUE_GREEN")])
  ECSServices := some [Json.obj [("ClusterName", Json.str "c")]]
  Ec2TagFilters := some [Json.obj [("Key", Json.str "k")]]
  Ec2TagSet := some (Json.obj [])
  LoadBalancerInfo := some (Json.obj [])
  OnPremisesInstanceTagFilters := some [Json.obj []]
  OnPremisesTagSet := some (Json.obj [])
  ServiceRoleArn := some (Json.str "arn:aws:iam::1:role/r")
  TriggerConfigurations := some [Json.obj [("TriggerName", Json.str "t")]]
  AWSCloudFormationDeletionPolicy := "Retain"
  AWSCloudFormationUpdateReplacePolicy := "Delete"
  AWSCloudFormationDependsOn := ["A", "B"]
  AWSCloudFormationMetadata := [("k", Json.str "v")]
  AWSCloudFormationCondition := "Cond" }


/-- A receiver with pre-existing envelope values, for frame-condition
witnesses. -/
def sampleReceiver : DeploymentGroup :=
  { DeploymentGroup.new with
      AWSCloudFormationDependsOn := ["X"]
      AWSCloudFormationDeletionPolicy := "Retain" }

/-- A sample property subtype value with populated envelope fields. -/
def sampleController : Service_DeploymentController :=
  { «Type» := some (Json.str "CODE_DEPLOY")
    AWSCloudFormationDeletionPolicy := "Retain"
    AWSCloudFormationCondition := "C" }

/-- A sample `MLTransform_InputRecordTables` value with populated envelope
fields. -/
def sampleInputRecordTables : MLTransform_InputRecordTables :=
  { GlueTables := some [Json.obj [("TableName", Json.str "t")]]
    AWSCloudFormationDependsOn := ["D"] }

/-! ### Reduction lemmas -/

theorem exceptMap_ok {ε α β : Type} {f : α → β} {e : Except ε α} {b : β}
    (h : Except.map f e = .ok b) : ∃ a, e = .ok a ∧ b = f a := by
  cases e with
  | ok a =>
    refine ⟨a, rfl, ?_⟩
    simpa [Except.map] using h.symm
  | error e => simp [Except.map] at h

theorem matchEnvField_Type : matchEnvField "Type" = some .type := rfl

theorem matchEnvField_Properties : matchEnvField "Properties" = some .properties := rfl

theorem matchEnvField_DependsOn : matchEnvField "DependsOn" = some .dependsOn := rfl

theorem matchEnvField_Metadata : matchEnvField "Metadata" = some .metadata := rfl

theorem matchEnvField_DeletionPolicy : matchEnvField "DeletionPolicy" = some .deletionPolicy := rfl

theorem matchEnvField_UpdateReplacePolicy : matchEnvField "UpdateReplacePolicy" = some .updateReplacePolicy := rfl

theorem matchEnvField_Condition : matchEnvField "Condition" = some .condition := rfl

theorem updOpt_none (o : Option Json) : updOpt o none = normalizeOpt o := by
  rcases o with _ | j
  · rfl
  · cases j <;> rfl

theorem updList_none (o : Option (List Json)) : updList o none = normalizeList o := by
  rcases o with _ | (_ | ⟨x, xs⟩) <;> rfl

theorem decodeStringElems_map (fld : String) (ds : List String) :
    decodeStringElems fld (ds.map Json.str) = .ok ds := by
  induction ds with
  | nil => rfl
  | cons a as ih => simp [List.map, decodeStringElems, ih, Except.map]

theorem decodeProperties_seg_AlarmConfiguration (p : DeploymentGroup) (o : Option Json)
    (rest : List (String × Json)) :
    decodeProperties p (optMember "AlarmConfiguration" o ++ rest) =
      decodeProperties { p with AlarmConfiguration := updOpt o p.AlarmConfiguration } rest := by
  cases o <;> rfl

theorem decodeProperties_seg_ApplicationName (p : DeploymentGroup) (o : Option Json)
    (rest : List (String × Json)) :
    decodeProperties p (optMember "ApplicationName" o ++ rest) =
      decodeProperties { p with ApplicationName := updOpt o p.ApplicationName } rest := by
  cases o <;> rfl

theorem decodeProperties_seg_AutoRollbackConfiguration (p : DeploymentGroup) (o : Option Json)
    (rest : List (String × Json)) :
    decodeProperties p (optMember "AutoRollbackConfiguration" o ++ rest) =
      decodeProperties { p with AutoRollbackConfiguration := updOpt o p.AutoRollbackConfiguration } rest := by
  cases o <;> rfl

theorem decodeProperties_seg_AutoScalingGroups (p : DeploymentGroup) (o : Option Json)
    (rest : List (String × Json)) :
    decodeProperties p (optMember "AutoScalingGroups" o ++ rest) =
      decodeProperties { p with AutoScalingGroups := updOpt o p.AutoScalingGroups } rest := by
  cases o <;> rfl

theorem decodeProperties_seg_BlueGreenDeploymentConfiguration (p : DeploymentGroup) (o : Option Json)
    (rest : List (String × Json)) :
    decodeProperties p (optMember "BlueGreenDeploymentConfiguration" o ++ rest) =
      decodeProperties { p with BlueGreenDeploymentConfiguration := updOpt o p.BlueGreenDeploymentConfiguration } rest := by
  cases o <;> rfl

theorem decodeProperties_seg_Deployment (p : DeploymentGroup) (o : Option Json)
    (rest : List (String × Json)) :
    decodeProperties p (optMember "Deployment" o ++ rest) =
      decodeProperties { p with Deployment := updOpt o p.Deployment } rest := by
  cases o <;> rfl

theorem decodeProperties_seg_DeploymentConfigName (p : DeploymentGroup) (o : Option Json)
    (rest : List (String × Json)) :
    decodeProperties p (optMember "DeploymentConfigName" o ++ rest) =
      decodeProperties { p with DeploymentConfigName := updOpt o p.DeploymentConfigName } rest := by
  cases o <;> rfl

theorem decodeProperties_seg_DeploymentGroupName (p : DeploymentGroup) (o : Option Json)
    (rest : List (String × Json)) :
    decodeProperties p (optMember "DeploymentGroupName" o ++ rest) =
      decodeProperties { p with DeploymentGroupName := updOpt o p.DeploymentGroupName } rest := by
  cases o <;> rfl

theorem decodeProperties_seg_DeploymentStyle (p : DeploymentGroup) (o : Option Json)
    (rest : List (String × Json)) :
    decodeProperties p (optMember "DeploymentStyle" o ++ rest) =
      decodeProperties { p with DeploymentStyle := updOpt o p.DeploymentStyle } rest := by
  cases o <;> rfl

theorem decodeProperties_seg_ECSServices (p : DeploymentGroup) (o : Option (List Json))
    (rest : List (String × Json)) :
    decodeProperties p (listMember "ECSServices" o ++ rest) =
      decodeProperties { p with ECSServices := updList o p.ECSServices } rest := by
  rcases o with _ | (_ | ⟨x, xs⟩) <;> rfl

theorem decodeProperties_seg_Ec2TagFilters (p : DeploymentGroup) (o : Option (List Json))
    (rest : List (String × Json)) :
    decodeProperties p (listMember "Ec2TagFilters" o ++ rest) =
      decodeProperties { p with Ec2TagFilters := updList o p.Ec2TagFilters } rest := by
  rcases o with _ | (_ | ⟨x, xs⟩) <;> rfl

theorem decodeProperties_seg_Ec2TagSet (p : DeploymentGroup) (o : Option Json)
    (rest : List (String × Json)) :
    decodeProperties p (optMember "Ec2TagSet" o ++ rest) =
      decodeProperties { p with Ec2TagSet := updOpt o p.Ec2TagSet } rest := by
  cases o <;> rfl

theorem decodeProperties_seg_LoadBalancerInfo (p : DeploymentGroup) (o : Option Json)
    (rest : List (String × Json)) :
    decodeProperties p (optMember "LoadBalancerInfo" o ++ rest) =
      decodeProperties { p with LoadBalancerInfo := updOpt o p.LoadBalancerInfo } rest := by
  cases o <;> rfl

theorem decodeProperties_seg_OnPremisesInstanceTagFilters (p : DeploymentGroup) (o : Option (List Json))
    (rest : List (String × Json)) :
    decodeProperties p (listMember "OnPremisesInstanceTagFilters" o ++ rest) =
      decodeProperties { p with OnPremisesInstanceTagFilters := updList o p.OnPremisesInstanceTagFilters } rest := by
  rcases o with _ | (_ | ⟨x, xs⟩) <;> rfl

theorem decodeProperties_seg_OnPremisesTagSet (p : DeploymentGroup) (o : Option Json)
    (rest : List (String × Json)) :
    decodeProperties p (optMember "OnPremisesTagSet" o ++ rest) =
      decodeProperties { p with OnPremisesTagSet := updOpt o p.OnPremisesTagSet } rest := by
  cases o <;> rfl

theorem decodeProperties_seg_ServiceRoleArn (p : DeploymentGroup) (o : Option Json)
    (rest : List (String × Json)) :
    decodeProperties p (optMember "ServiceRoleArn" o ++ rest) =
      decodeProperties { p with ServiceRoleArn := updOpt o p.ServiceRoleArn } rest := by
  cases o <;> rfl

theorem decodeProperties_seg_TriggerConfigurations (p : DeploymentGroup) (o : Option (List Json)) :
    decodeProperties p (listMember "TriggerConfigurations" o) =
      .ok { p with TriggerConfigurations := updList o p.TriggerConfigurations } := by
  rcases o with _ | (_ | ⟨x, xs⟩) <;> rfl

theorem decodeProperties_marshalProperties (r : DeploymentGroup) :
    decodeProperties {} r.marshalProperties = .ok r.decodedProperties := by
  unfold DeploymentGroup.marshalProperties
  simp only [List.append_assoc]
  rw [decodeProperties_seg_AlarmConfiguration, decodeProperties_seg_ApplicationName,
    decodeProperties_seg_AutoRollbackConfiguration, decodeProperties_seg_AutoScalingGroups,
    decodeProperties_seg_BlueGreenDeploymentConfiguration, decodeProperties_seg_Deployment,
    decodeProperties_seg_DeploymentConfigName, decodeProperties_seg_DeploymentGroupName,
    decodeProperties_seg_DeploymentStyle, decodeProperties_seg_ECSServices,
    decodeProperties_seg_Ec2TagFilters, decodeProperties_seg_Ec2TagSet,
    decodeProperties_seg_LoadBalancerInfo, decodeProperties_seg_OnPremisesInstanceTagFilters,
    decodeProperties_seg_OnPremisesTagSet, decodeProperties_seg_ServiceRoleArn,
    decodeProperties_seg_TriggerConfigurations]
  simp only [updOpt_none, updList_none]
  rfl

theorem decodeEnvFields_typeMember (st : ResEnvelope) (s : String) (rest : List (String × Json)) :
    decodeEnvFields st (("Type", Json.str s) :: rest) =
      decodeEnvFields { st with type := s } rest := rfl

theorem decodeEnvFields_propsMember (st : ResEnvelope) {pm : List (String × Json)}
    {p : DeploymentGroup} (h : decodeProperties {} pm = .ok p) (rest : List (String × Json)) :
    decodeEnvFields st (("Properties", Json.obj pm) :: rest) =
      decodeEnvFields { st with properties := some p } rest := by
  simp only [decodeEnvFields, stepEnvelope, matchEnvField_Properties, h, Except.map]

theorem decodeEnvFields_depMember (st : ResEnvelope) (d : List String) (rest : List (String × Json)) :
    decodeEnvFields st (depMember d ++ rest) =
      decodeEnvFields { st with dependsOn := updDep d st.dependsOn } rest := by
  cases d with
  | nil => rfl
  | cons a as =>
    simp only [depMember, List.cons_append, List.nil_append, decodeEnvFields, stepEnvelope,
      matchEnvField_DependsOn, decodeDependsOn, decodeStringElems_map, Except.map, updDep]
    rfl

theorem decodeEnvFields_metaMember (st : ResEnvelope) (m : List (String × Json)) (rest : List (String × Json)) :
    decodeEnvFields st (metaMember m ++ rest) =
      decodeEnvFields { st with metadata := updMeta m st.metadata } rest := by
  cases m with
  | nil => rfl
  | cons b bs => rfl

theorem decodeEnvFields_delMember (st : ResEnvelope) (s : String) (rest : List (String × Json)) :
    decodeEnvFields st (strMember "DeletionPolicy" s ++ rest) =
      decodeEnvFields { st with deletionPolicy := updStr s st.deletionPolicy } rest := by
  by_cases h : s = ""
  · subst h; rfl
  · simp only [strMember, updStr, if_neg h, List.cons_append, List.nil_append]
    rfl

theorem decodeEnvFields_urpMember (st : ResEnvelope) (s : String) (rest : List (String × Json)) :
    decodeEnvFields st (strMember "UpdateReplacePolicy" s ++ rest) =
      decodeEnvFields { st with updateReplacePolicy := updStr s st.updateReplacePolicy } rest := by
  by_cases h : s = ""
  · subst h; rfl
  · simp only [strMember, updStr, if_neg h, List.cons_append, List.nil_append]
    rfl

theorem decodeEnvFields_condMember_final (st : ResEnvelope) (s : String) :
    decodeEnvFields st (strMember "Condition" s) =
      .ok { st with condition := updStr s st.condition } := by
  by_cases h : s = ""
  · subst h; rfl
  · simp only [strMember, updStr, if_neg h]
    rfl

theorem applyRes_roundtrip (r₀ r : DeploymentGroup) :
    applyRes r₀
      { type := DeploymentGroup.AWSCloudFormationType,
        properties := some r.decodedProperties,
        dependsOn := updDep r.AWSCloudFormationDependsOn none,
        metadata := updMeta r.AWSCloudFormationMetadata none,
        deletionPolicy := updStr r.AWSCloudFormationDeletionPolicy "",
        updateReplacePolicy := updStr r.AWSCloudFormationUpdateReplacePolicy "",
        condition := updStr r.AWSCloudFormationCondition "" } = r.roundtrip := by
  rcases hd : r.AWSCloudFormationDependsOn with _ | ⟨a, as⟩ <;>
  rcases hm : r.AWSCloudFormationMetadata with _ | ⟨b, bs⟩ <;>
  by_cases h1 : r.AWSCloudFormationDeletionPolicy = "" <;>
  by_cases h2 : r.AWSCloudFormationUpdateReplacePolicy = "" <;>
  by_cases h3 : r.AWSCloudFormationCondition = "" <;>
  simp [applyRes, updDep, updMeta, updStr, DeploymentGroup.roundtrip, DeploymentGroup.decodedProperties, hd, hm, h1, h2, h3]

theorem unmarshal_marshal (r₀ r : DeploymentGroup) :
    DeploymentGroup.UnmarshalJSON r₀ r.MarshalJSON = .ok r.roundtrip := by
  show DeploymentGroup.UnmarshalJSON r₀ (Json.obj _) = _
  simp only [DeploymentGroup.MarshalJSON, DeploymentGroup.UnmarshalJSON,
    List.append_assoc, List.cons_append, List.nil_append]
  rw [decodeEnvFields_typeMember,
    decodeEnvFields_propsMember _ (decodeProperties_marshalProperties r),
    decodeEnvFields_depMember, decodeEnvFields_metaMember,
    decodeEnvFields_delMember, decodeEnvFields_urpMember,
    decodeEnvFields_condMember_final]
  exact congrArg Except.ok (applyRes_roundtrip r₀ r)

theorem populatedOpt_normalize {o : Option Json} (h : populatedOpt o = true) :
    normalizeOpt o = o := by
  rcases o with _ | j
  · rfl
  · cases j <;> simp_all [populatedOpt, normalizeOpt]

theorem populatedList_normalize {o : Option (List Json)} (h : populatedList o = true) :
    normalizeList o = o := by
  rcases o with _ | (_ | ⟨x, xs⟩) <;> simp_all [populatedList, normalizeList]

theorem DeploymentGroup.roundtrip_eq_self {r : DeploymentGroup} (h : r.fullyPopulated) :
    r.roundtrip = r := by
  obtain ⟨h1, h2, h3, h4, h5, h6, h7, h8, h9, h10, h11, h12, h13, h14, h15, h16, h17,
    _, _, _, _, _⟩ := h
  cases r
  simp only [DeploymentGroup.roundtrip, DeploymentGroup.decodedProperties] at *
  simp only [populatedOpt_normalize h1, populatedOpt_normalize h2, populatedOpt_normalize h3,
    populatedOpt_normalize h4, populatedOpt_normalize h5, populatedOpt_normalize h6,
    populatedOpt_normalize h7, populatedOpt_normalize h8, populatedOpt_normalize h9,
    populatedList_normalize h10, populatedList_normalize h11, populatedOpt_normalize h12,
    populatedOpt_normalize h13, populatedList_normalize h14, populatedOpt_normalize h15,
    populatedOpt_normalize h16, populatedList_normalize h17]

/-- C1: for every constructible `DeploymentGroup` with all optional
properties and envelope fields populated, unmarshalling the output of
marshalling yields a structurally equal value. -/
theorem C1_roundtrip_deploymentGroup (r : DeploymentGroup) (h : r.fullyPopulated) :
    DeploymentGroup.UnmarshalJSON DeploymentGroup.new r.MarshalJSON = .ok r := by
  rw [unmarshal_marshal, DeploymentGroup.roundtrip_eq_self h]

/-- Witness for C1 at `sampleDeploymentGroup`. -/
theorem C1_roundtrip_deploymentGroup_witness :
    sampleDeploymentGroup.fullyPopulated ∧
      DeploymentGroup.UnmarshalJSON DeploymentGroup.new sampleDeploymentGroup.MarshalJSON =
        .ok sampleDeploymentGroup :=
  ⟨by decide, C1_roundtrip_deploymentGroup sampleDeploymentGroup (by decide)⟩

theorem stepEnvelope_frame {st st' : ResEnvelope} {kv : String × Json}
    (h : stepEnvelope st kv = .ok st') :
    (matchEnvField kv.1 ≠ some .properties → st'.properties = st.properties) ∧
    (matchEnvField kv.1 ≠ some .dependsOn → st'.dependsOn = st.dependsOn) ∧
    (matchEnvField kv.1 ≠ some .metadata → st'.metadata = st.metadata) ∧
    (matchEnvField kv.1 ≠ some .deletionPolicy → st'.deletionPolicy = st.deletionPolicy) ∧
    (matchEnvField kv.1 ≠ some .updateReplacePolicy → st'.updateReplacePolicy = st.updateReplacePolicy) ∧
    (matchEnvField kv.1 ≠ some .condition → st'.condition = st.condition) := by
  obtain ⟨k, v⟩ := kv
  unfold stepEnvelope at h
  cases hm : matchEnvField k with
  | none => rw [hm] at h; cases h
  | some f =>
    rw [hm] at h
    cases f with
    | type => rcases exceptMap_ok h with ⟨s, _, rfl⟩; simp [hm]
    | properties =>
      cases v with
      | obj ms => rcases exceptMap_ok h with ⟨p, _, rfl⟩; simp [hm]
      | null => cases h; simp [hm]
      | bool b => cases h
      | num n => cases h
      | str s => cases h
      | arr xs => cases h
    | dependsOn => rcases exceptMap_ok h with ⟨d, _, rfl⟩; simp [hm]
    | metadata => rcases exceptMap_ok h with ⟨m, _, rfl⟩; simp [hm]
    | deletionPolicy => rcases exceptMap_ok h with ⟨s, _, rfl⟩; simp [hm]
    | updateReplacePolicy => rcases exceptMap_ok h with ⟨s, _, rfl⟩; simp [hm]
    | condition => rcases exceptMap_ok h with ⟨s, _, rfl⟩; simp [hm]

theorem decodeEnvFields_frame {α : Type} (φ : ResEnvelope → α) (f : EnvField)
    (hstep : ∀ {st st' : ResEnvelope} {kv : String × Json}, stepEnvelope st kv = .ok st' →
      matchEnvField kv.1 ≠ some f → φ st' = φ st) :
    ∀ (ms : List (String × Json)) (st res : ResEnvelope),
      decodeEnvFields st ms = .ok res →
      (∀ kv ∈ ms, matchEnvField kv.1 ≠ some f) → φ res = φ st := by
  intro ms
  induction ms with
  | nil => intro st res h _; cases h; rfl
  | cons kv rest ih =>
    intro st res h hk
    cases hs : stepEnvelope st kv with
    | error e => simp only [decodeEnvFields, hs] at h; cases h
    | ok st' =>
      simp only [decodeEnvFields, hs] at h
      rw [ih st' res h (fun kv' hkv' => hk kv' (List.mem_cons_of_mem _ hkv')),
        hstep hs (hk kv (List.mem_cons_self kv rest))]

theorem decodeEnvFields_step_ok :
    ∀ (ms : List (String × Json)) (st res : ResEnvelope),
      decodeEnvFields st ms = .ok res →
      ∀ kv ∈ ms, ∃ st₁ st₂, stepEnvelope st₁ kv = .ok st₂ := by
  intro ms
  induction ms with
  | nil => intro st res _ kv hkv; cases hkv
  | cons kv₀ rest ih =>
    intro st res h kv hkv
    cases hs : stepEnvelope st kv₀ with
    | error e => simp only [decodeEnvFields, hs] at h; cases h
    | ok st' =>
      simp only [decodeEnvFields, hs] at h
      cases hkv with
      | head => exact ⟨st, st', hs⟩
      | tail _ hkv => exact ih st' res h kv hkv

theorem decodeGoString_ok {fld cur : String} {v : Json} {s : String}
    (h : decodeGoString fld cur v = .ok s) : (∃ t, v = Json.str t) ∨ v = Json.null := by
  cases v <;> simp_all [decodeGoString]

theorem matchEnvField_isSome_iff (k : String) :
    (matchEnvField k).isSome = true ↔ ∃ f : EnvField, eqCI k f.name = true := by
  constructor
  · intro h
    unfold matchEnvField at h
    split_ifs at h with h1 h2 h3 h4 h5 h6 h7
    · exact ⟨.type, h1⟩
    · exact ⟨.properties, h2⟩
    · exact ⟨.dependsOn, h3⟩
    · exact ⟨.metadata, h4⟩
    · exact ⟨.deletionPolicy, h5⟩
    · exact ⟨.updateReplacePolicy, h6⟩
    · exact ⟨.condition, h7⟩
    · simp at h
  · rintro ⟨f, hf⟩
    unfold matchEnvField
    split_ifs with h1 h2 h3 h4 h5 h6 h7 <;> try rfl
    cases f <;> simp only [EnvField.name] at hf
    exacts [absurd hf h1, absurd hf h2, absurd hf h3, absurd hf h4, absurd hf h5,
      absurd hf h6, absurd hf h7]

theorem stepEnvelope_ok_isSome {st st' : ResEnvelope} {kv : String × Json}
    (h : stepEnvelope st kv = .ok st') : (matchEnvField kv.1).isSome = true := by
  unfold stepEnvelope at h
  cases hm : matchEnvField kv.1 with
  | none => rw [hm] at h; cases h
  | some f => rfl

/-- C6: encode always contains `Type` and `Properties` (the latter an object,
empty for the zero resource), and omits each optional envelope member
exactly when it is zero/empty. -/
theorem C6_marshal_shape (r : DeploymentGroup) :
    (r.MarshalJSON).lookupKey "Type" = some (Json.str "AWS::CodeDeploy::DeploymentGroup") ∧
    (r.MarshalJSON).lookupKey "Properties" = some (Json.obj r.marshalProperties) ∧
    DeploymentGroup.new.marshalProperties = [] ∧
    (("DependsOn" ∈ (r.MarshalJSON).keys ↔ r.AWSCloudFormationDependsOn ≠ []) ∧
     ("Metadata" ∈ (r.MarshalJSON).keys ↔ r.AWSCloudFormationMetadata ≠ []) ∧
     ("DeletionPolicy" ∈ (r.MarshalJSON).keys ↔ r.AWSCloudFormationDeletionPolicy ≠ "") ∧
     ("UpdateReplacePolicy" ∈ (r.MarshalJSON).keys ↔ r.AWSCloudFormationUpdateReplacePolicy ≠ "") ∧
     ("Condition" ∈ (r.MarshalJSON).keys ↔ r.AWSCloudFormationCondition ≠ "")) := by
  refine ⟨rfl, rfl, rfl, ?_⟩
  rcases hd : r.AWSCloudFormationDependsOn with _ | ⟨a, as⟩ <;>
  rcases hm : r.AWSCloudFormationMetadata with _ | ⟨b, bs⟩ <;>
  by_cases h1 : r.AWSCloudFormationDeletionPolicy = "" <;>
  by_cases h2 : r.AWSCloudFormationUpdateReplacePolicy = "" <;>
  by_cases h3 : r.AWSCloudFormationCondition = "" <;>
  simp [DeploymentGroup.MarshalJSON, Json.keys, depMember, metaMember, strMember,
    hd, hm, h1, h2, h3]

theorem applyRes_properties_proj (r : DeploymentGroup) (res : ResEnvelope) :
    (applyRes r res).properties =
      (match res.properties with | some p => p | none => r).properties := by
  unfold applyRes
  rcases hd : res.dependsOn with _ | d <;>
  rcases hm : res.metadata with _ | m <;>
  by_cases h1 : res.deletionPolicy = "" <;>
  by_cases h2 : res.updateReplacePolicy = "" <;>
  by_cases h3 : res.condition = "" <;>
  simp [DeploymentGroup.properties, h1, h2, h3]

theorem applyRes_dependsOn_none (r : DeploymentGroup) (res : ResEnvelope)
    (hp : res.properties = none) (hd : res.dependsOn = none) :
    (applyRes r res).AWSCloudFormationDependsOn = r.AWSCloudFormationDependsOn := by
  unfold applyRes
  rw [hp, hd]
  rcases hm : res.metadata with _ | m <;>
  by_cases h1 : res.deletionPolicy = "" <;>
  by_cases h2 : res.updateReplacePolicy = "" <;>
  by_cases h3 : res.condition = "" <;>
  simp [h1, h2, h3]

theorem applyRes_metadata_none (r : DeploymentGroup) (res : ResEnvelope)
    (hp : res.properties = none) (hm : res.metadata = none) :
    (applyRes r res).AWSCloudFormationMetadata = r.AWSCloudFormationMetadata := by
  unfold applyRes
  rw [hp, hm]
  rcases hd : res.dependsOn with _ | d <;>
  by_cases h1 : res.deletionPolicy = "" <;>
  by_cases h2 : res.updateReplacePolicy = "" <;>
  by_cases h3 : res.condition = "" <;>
  simp [h1, h2, h3]

theorem applyRes_deletionPolicy_empty (r : DeploymentGroup) (res : ResEnvelope)
    (hp : res.properties = none) (he : res.deletionPolicy = "") :
    (applyRes r res).AWSCloudFormationDeletionPolicy = r.AWSCloudFormationDeletionPolicy := by
  unfold applyRes
  rw [hp, he]
  rcases hd : res.dependsOn with _ | d <;>
  rcases hm : res.metadata with _ | m <;>
  by_cases h2 : res.updateReplacePolicy = "" <;>
  by_cases h3 : res.condition = "" <;>
  simp [h2, h3]

theorem applyRes_updateReplacePolicy_empty (r : DeploymentGroup) (res : ResEnvelope)
    (hp : res.properties = none) (he : res.updateReplacePolicy = "") :
    (applyRes r res).AWSCloudFormationUpdateReplacePolicy =
      r.AWSCloudFormationUpdateReplacePolicy := by
  unfold applyRes
  rw [hp, he]
  rcases hd : res.dependsOn with _ | d <;>
  rcases hm : res.metadata with _ | m <;>
  by_cases h1 : res.deletionPolicy = "" <;>
  by_cases h3 : res.condition = "" <;>
  simp [h1, h3]

theorem applyRes_condition_empty (r : DeploymentGroup) (res : ResEnvelope)
    (hp : res.properties = none) (he : res.condition = "") :
    (applyRes r res).AWSCloudFormationCondition = r.AWSCloudFormationCondition := by
  unfold applyRes
  rw [hp, he]
  rcases hd : res.dependsOn with _ | d <;>
  rcases hm : res.metadata with _ | m <;>
  by_cases h1 : res.deletionPolicy = "" <;>
  by_cases h2 : res.updateReplacePolicy = "" <;>
  simp [h1, h2]

/-- C2 (amended): the decoder does not enforce required properties — on any
accepted input whose members do not include a `Properties` field, decoding
into a fresh resource succeeds with the required `ApplicationName` and
`ServiceRoleArn` left empty; there is no missing-required-property error. -/
theorem C2_decode_missing_required (ms : List (String × Json)) (r' : DeploymentGroup)
    (hP : ∀ kv ∈ ms, matchEnvField kv.1 ≠ some .properties)
    (h : DeploymentGroup.UnmarshalJSON DeploymentGroup.new (Json.obj ms) = .ok r') :
    r'.ApplicationName = none ∧ r'.ServiceRoleArn = none := by
  simp only [DeploymentGroup.UnmarshalJSON] at h
  cases hres : decodeEnvFields {} ms with
  | error e => rw [hres] at h; cases h
  | ok res =>
    rw [hres] at h
    cases h
    have hpnone : res.properties = none :=
      decodeEnvFields_frame ResEnvelope.properties .properties
        (fun hs hne => (stepEnvelope_frame hs).1 hne) ms {} res hres hP
    have hproj := applyRes_properties_proj DeploymentGroup.new res
    rw [hpnone] at hproj
    exact ⟨congrArg DeploymentGroup.ApplicationName hproj,
      congrArg DeploymentGroup.ServiceRoleArn hproj⟩

/-- Witness for C2 (amended): decoding `{"Type": "AWS::CodeDeploy::DeploymentGroup"}`. -/
theorem C2_decode_missing_required_witness :
    DeploymentGroup.new.ApplicationName = none ∧ DeploymentGroup.new.ServiceRoleArn = none :=
  C2_decode_missing_required [("Type", Json.str "AWS::CodeDeploy::DeploymentGroup")]
    DeploymentGroup.new (by decide) rfl

/-- Counterexample to C2 as stated: decoding an input without `Properties`
(hence without the required `ApplicationName` and `ServiceRoleArn`) succeeds
with the required properties left empty, instead of failing with a
missing-required-property error. -/
theorem C2_counterexample :
    DeploymentGroup.UnmarshalJSON DeploymentGroup.new
        (Json.obj [("Type", Json.str "AWS::CodeDeploy::DeploymentGroup")]) =
      .ok DeploymentGroup.new ∧
    DeploymentGroup.new.ApplicationName = none ∧
    DeploymentGroup.new.ServiceRoleArn = none :=
  ⟨rfl, rfl, rfl⟩

/-- C3 (amended): the decoder does not require a `Type` member; but whenever
an accepted input has a member named `Type`, its value is a JSON string or
`null` (any other shape is a decode type error). -/
theorem C3_type_member_shape (ms : List (String × Json)) (r r' : DeploymentGroup)
    (h : DeploymentGroup.UnmarshalJSON r (Json.obj ms) = .ok r') (v : Json)
    (hv : ("Type", v) ∈ ms) : (∃ s, v = Json.str s) ∨ v = Json.null := by
  simp only [DeploymentGroup.UnmarshalJSON] at h
  cases hres : decodeEnvFields {} ms with
  | error e => rw [hres] at h; cases h
  | ok res =>
    rcases decodeEnvFields_step_ok ms {} res hres ("Type", v) hv with ⟨st₁, st₂, hs⟩
    simp only [stepEnvelope, matchEnvField_Type] at hs
    rcases exceptMap_ok hs with ⟨s, hdec, _⟩
    exact decodeGoString_ok hdec

/-- Witness for C3 (amended). -/
theorem C3_type_member_shape_witness :
    (∃ s, Json.str "T" = Json.str s) ∨ Json.str "T" = Json.null :=
  C3_type_member_shape [("Type", Json.str "T")] DeploymentGroup.new
    DeploymentGroup.new rfl (Json.str "T") (List.Mem.head _)

/-- Counterexample to C3 as stated: the empty object — which has no `Type`
member at all — is accepted by the decoder. -/
theorem C3_counterexample :
    DeploymentGroup.UnmarshalJSON DeploymentGroup.new (Json.obj []) =
      .ok DeploymentGroup.new := rfl

/-- C5 (amended): every member of an accepted input has a key matching one
of the seven envelope field names, but the match is the ASCII
case-insensitive one of `encoding/json` — e.g. the key `"type"` is accepted
as `Type` rather than rejected; a key matching none of the seven names
case-insensitively is an unknown-field error. -/
theorem C5_accepted_keys (ms : List (String × Json)) (r r' : DeploymentGroup)
    (h : DeploymentGroup.UnmarshalJSON r (Json.obj ms) = .ok r') :
    ∀ kv ∈ ms, ∃ f : EnvField, eqCI kv.1 f.name = true := by
  simp only [DeploymentGroup.UnmarshalJSON] at h
  cases hres : decodeEnvFields {} ms with
  | error e => rw [hres] at h; cases h
  | ok res =>
    intro kv hkv
    rcases decodeEnvFields_step_ok ms {} res hres kv hkv with ⟨st₁, st₂, hs⟩
    exact (matchEnvField_isSome_iff kv.1).1 (stepEnvelope_ok_isSome hs)

/-- Witness for C5 (amended). -/
theorem C5_accepted_keys_witness :
    ∃ f : EnvField, eqCI "type" f.name = true :=
  C5_accepted_keys [("type", Json.str "X")] DeploymentGroup.new DeploymentGroup.new rfl
    ("type", Json.str "X") (List.Mem.head _)

/-- Counterexample to C5 as stated: the key `"type"` is not one of the seven
envelope field names, yet the decoder accepts it (as a case-insensitive
match for `Type`) instead of returning an unknown-field error. -/
theorem C5_counterexample :
    ("type" ∉ ["Type", "Properties", "DependsOn", "Metadata", "DeletionPolicy",
      "UpdateReplacePolicy", "Condition"]) ∧
    DeploymentGroup.UnmarshalJSON DeploymentGroup.new
        (Json.obj [("type", Json.str "X")]) = .ok DeploymentGroup.new :=
  ⟨by decide, rfl⟩

/-- C4 (amended): on decode, `DependsOn` accepts a JSON sequence of strings
(stored as the internal slice) but NOT a single bare string, which is a
decode type error; on encode, `DependsOn` is always emitted as a sequence
(omitted exactly when the slice is empty). -/
theorem C4_dependsOn_shape (s : String) (ds : List String) (r : DeploymentGroup) :
    DeploymentGroup.UnmarshalJSON DeploymentGroup.new
        (Json.obj [("DependsOn", Json.str s)]) = .error (.typeError "DependsOn") ∧
    DeploymentGroup.UnmarshalJSON DeploymentGroup.new
        (Json.obj [("DependsOn", Json.arr (ds.map Json.str))]) =
      .ok { DeploymentGroup.new with AWSCloudFormationDependsOn := ds } ∧
    (r.MarshalJSON).lookupKey "DependsOn" =
      (if r.AWSCloudFormationDependsOn = [] then none
       else some (Json.arr (r.AWSCloudFormationDependsOn.map Json.str))) := by
  refine ⟨rfl, ?_, ?_⟩
  · simp only [DeploymentGroup.UnmarshalJSON, decodeEnvFields, stepEnvelope,
      matchEnvField_DependsOn, decodeDependsOn, decodeStringElems_map, Except.map]
    simp [applyRes]
  · rcases hd : r.AWSCloudFormationDependsOn with _ | ⟨a, as⟩ <;>
    rcases hm : r.AWSCloudFormationMetadata with _ | ⟨b, bs⟩ <;>
    by_cases h1 : r.AWSCloudFormationDeletionPolicy = "" <;>
    by_cases h2 : r.AWSCloudFormationUpdateReplacePolicy = "" <;>
    by_cases h3 : r.AWSCloudFormationCondition = "" <;>
    simp [DeploymentGroup.MarshalJSON, Json.lookupKey, depMember, metaMember, strMember,
      hd, hm, h1, h2, h3, List.lookup]

/-- Counterexample to C4 as stated: decoding `"DependsOn": "A"` (a single
bare string) is a type error, not a normalized singleton sequence. -/
theorem C4_counterexample :
    DeploymentGroup.UnmarshalJSON DeploymentGroup.new
        (Json.obj [("DependsOn", Json.str "A")]) =
      .error (.typeError "DependsOn") := rfl

/-- C7: a resource marshalled with `DeletionPolicy` unset produces no
`DeletionPolicy` key, and unmarshalling that output succeeds and yields an
unset policy (not an error and not `"Delete"`). -/
theorem C7_deletionPolicy_unset (r : DeploymentGroup)
    (h : r.AWSCloudFormationDeletionPolicy = "") :
    "DeletionPolicy" ∉ (r.MarshalJSON).keys ∧
    ∃ r', DeploymentGroup.UnmarshalJSON DeploymentGroup.new r.MarshalJSON = .ok r' ∧
      r'.AWSCloudFormationDeletionPolicy = "" := by
  constructor
  · rcases hd : r.AWSCloudFormationDependsOn with _ | ⟨a, as⟩ <;>
    rcases hm : r.AWSCloudFormationMetadata with _ | ⟨b, bs⟩ <;>
    by_cases h2 : r.AWSCloudFormationUpdateReplacePolicy = "" <;>
    by_cases h3 : r.AWSCloudFormationCondition = "" <;>
    simp [DeploymentGroup.MarshalJSON, Json.keys, depMember, metaMember, strMember,
      hd, hm, h, h2, h3]
  · exact ⟨r.roundtrip, unmarshal_marshal DeploymentGroup.new r, h⟩

/-- Witness for C7 at the zero resource. -/
theorem C7_deletionPolicy_unset_witness :
    "DeletionPolicy" ∉ (DeploymentGroup.new.MarshalJSON).keys ∧
    ∃ r', DeploymentGroup.UnmarshalJSON DeploymentGroup.new
        DeploymentGroup.new.MarshalJSON = .ok r' ∧
      r'.AWSCloudFormationDeletionPolicy = "" :=
  C7_deletionPolicy_unset DeploymentGroup.new rfl

/-- C8 (amended): decode performs no validation of the policy enums — any
policy string in the input, inside the set {Delete, Retain, Snapshot} or
not, is stored verbatim (an empty string leaves the field unset). -/
theorem C8_policy_not_validated (s t : String) :
    DeploymentGroup.UnmarshalJSON DeploymentGroup.new
        (Json.obj [("DeletionPolicy", Json.str s), ("UpdateReplacePolicy", Json.str t)]) =
      .ok { DeploymentGroup.new with
              AWSCloudFormationDeletionPolicy := s
              AWSCloudFormationUpdateReplacePolicy := t } := by
  simp only [DeploymentGroup.UnmarshalJSON, decodeEnvFields, stepEnvelope,
    matchEnvField_DeletionPolicy, matchEnvField_UpdateReplacePolicy, decodeGoString,
    Except.map]
  by_cases hs : s = "" <;> by_cases ht : t = "" <;>
    simp [applyRes, DeploymentGroup.new, hs, ht]

/-- Counterexample to C8 as stated: decoding stores the policy string
`"Bogus"`, which is non-empty and outside {Delete, Retain, Snapshot}. -/
theorem C8_counterexample :
    DeploymentGroup.UnmarshalJSON DeploymentGroup.new
        (Json.obj [("DeletionPolicy", Json.str "Bogus")]) =
      .ok { DeploymentGroup.new with AWSCloudFormationDeletionPolicy := "Bogus" } ∧
    "Bogus" ∉ ["Delete", "Retain", "Snapshot"] ∧ ("Bogus" : String) ≠ "" :=
  ⟨rfl, by decide, by decide⟩

/-- C9 (amended): property fields of the receiver are overwritten only when
`Properties` is present.  When `Properties` is absent from the input, the
receiver's property fields survive, and an envelope field omitted from the
input keeps the receiver's prior value; when `Properties` is present the
whole receiver is replaced first, so omitted envelope fields are reset to
zero rather than preserved. -/
theorem C9_receiver_frame (r : DeploymentGroup) (ms : List (String × Json))
    (r' : DeploymentGroup)
    (hP : ∀ kv ∈ ms, matchEnvField kv.1 ≠ some .properties)
    (h : DeploymentGroup.UnmarshalJSON r (Json.obj ms) = .ok r') :
    r'.properties = r.properties ∧
    ((∀ kv ∈ ms, matchEnvField kv.1 ≠ some .dependsOn) →
      r'.AWSCloudFormationDependsOn = r.AWSCloudFormationDependsOn) ∧
    ((∀ kv ∈ ms, matchEnvField kv.1 ≠ some .metadata) →
      r'.AWSCloudFormationMetadata = r.AWSCloudFormationMetadata) ∧
    ((∀ kv ∈ ms, matchEnvField kv.1 ≠ some .deletionPolicy) →
      r'.AWSCloudFormationDeletionPolicy = r.AWSCloudFormationDeletionPolicy) ∧
    ((∀ kv ∈ ms, matchEnvField kv.1 ≠ some .updateReplacePolicy) →
      r'.AWSCloudFormationUpdateReplacePolicy = r.AWSCloudFormationUpdateReplacePolicy) ∧
    ((∀ kv ∈ ms, matchEnvField kv.1 ≠ some .condition) →
      r'.AWSCloudFormationCondition = r.AWSCloudFormationCondition) := by
  simp only [DeploymentGroup.UnmarshalJSON] at h
  cases hres : decodeEnvFields {} ms with
  | error e => rw [hres] at h; cases h
  | ok res =>
    rw [hres] at h
    cases h
    have hp : res.properties = none :=
      decodeEnvFields_frame ResEnvelope.properties .properties
        (fun hs hne => (stepEnvelope_frame hs).1 hne) ms {} res hres hP
    refine ⟨?_, ?_, ?_, ?_, ?_, ?_⟩
    · have hproj := applyRes_properties_proj r res
      rw [hp] at hproj
      exact hproj
    · intro hD
      exact applyRes_dependsOn_none r res hp
        (decodeEnvFields_frame ResEnvelope.dependsOn .dependsOn
          (fun hs hne => (stepEnvelope_frame hs).2.1 hne) ms {} res hres hD)
    · intro hM
      exact applyRes_metadata_none r res hp
        (decodeEnvFields_frame ResEnvelope.metadata .metadata
          (fun hs hne => (stepEnvelope_frame hs).2.2.1 hne) ms {} res hres hM)
    · intro hDel
      exact applyRes_deletionPolicy_empty r res hp
        (decodeEnvFields_frame ResEnvelope.deletionPolicy .deletionPolicy
          (fun hs hne => (stepEnvelope_frame hs).2.2.2.1 hne) ms {} res hres hDel)
    · intro hUrp
      exact applyRes_updateReplacePolicy_empty r res hp
        (decodeEnvFields_frame ResEnvelope.updateReplacePolicy .updateReplacePolicy
          (fun hs hne => (stepEnvelope_frame hs).2.2.2.2.1 hne) ms {} res hres hUrp)
    · intro hC
      exact applyRes_condition_empty r res hp
        (decodeEnvFields_frame ResEnvelope.condition .condition
          (fun hs hne => (stepEnvelope_frame hs).2.2.2.2.2 hne) ms {} res hres hC)

/-- Counterexample to C9 as stated: the receiver holds `DependsOn = ["X"]`,
the input omits `DependsOn` but contains `Properties`; after decoding the
prior value is reset to the zero value instead of being left unchanged. -/
theorem C9_counterexample :
    DeploymentGroup.UnmarshalJSON
        { DeploymentGroup.new with AWSCloudFormationDependsOn := ["X"] }
        (Json.obj [("Type", Json.str "T"), ("Properties", Json.obj [])]) =
      .ok DeploymentGroup.new ∧
    DeploymentGroup.new.AWSCloudFormationDependsOn ≠ ["X"] :=
  ⟨rfl, by decide⟩

theorem sdcStep_envelope (x : Service_DeploymentController) (kv : String × Json) :
    (Service_DeploymentController.step x kv).AWSCloudFormationDeletionPolicy =
        x.AWSCloudFormationDeletionPolicy ∧
    (Service_DeploymentController.step x kv).AWSCloudFormationUpdateReplacePolicy =
        x.AWSCloudFormationUpdateReplacePolicy ∧
    (Service_DeploymentController.step x kv).AWSCloudFormationDependsOn =
        x.AWSCloudFormationDependsOn ∧
    (Service_DeploymentController.step x kv).AWSCloudFormationMetadata =
        x.AWSCloudFormationMetadata ∧
    (Service_DeploymentController.step x kv).AWSCloudFormationCondition =
        x.AWSCloudFormationCondition := by
  unfold Service_DeploymentController.step
  by_cases h : eqCI kv.1 "Type" = true <;> simp [h]

theorem sdc_foldl_envelope (ms : List (String × Json)) :
    ∀ x : Service_DeploymentController,
    ((ms.foldl Service_DeploymentController.step x).AWSCloudFormationDeletionPolicy =
        x.AWSCloudFormationDeletionPolicy ∧
     (ms.foldl Service_DeploymentController.step x).AWSCloudFormationUpdateReplacePolicy =
        x.AWSCloudFormationUpdateReplacePolicy ∧
     (ms.foldl Service_DeploymentController.step x).AWSCloudFormationDependsOn =
        x.AWSCloudFormationDependsOn ∧
     (ms.foldl Service_DeploymentController.step x).AWSCloudFormationMetadata =
        x.AWSCloudFormationMetadata ∧
     (ms.foldl Service_DeploymentController.step x).AWSCloudFormationCondition =
        x.AWSCloudFormationCondition) := by
  induction ms with
  | nil => intro x; exact ⟨rfl, rfl, rfl, rfl, rfl⟩
  | cons kv rest ih =>
    intro x
    have hstep := sdcStep_envelope x kv
    have hrest := ih (Service_DeploymentController.step x kv)
    simp only [List.foldl_cons]
    exact ⟨hrest.1.trans hstep.1, hrest.2.1.trans hstep.2.1, hrest.2.2.1.trans hstep.2.2.1,
      hrest.2.2.2.1.trans hstep.2.2.2.1, hrest.2.2.2.2.trans hstep.2.2.2.2⟩

theorem mltStep_envelope {x x' : MLTransform_InputRecordTables} {kv : String × Json}
    (h : MLTransform_InputRecordTables.step x kv = .ok x') :
    x'.AWSCloudFormationDeletionPolicy = x.AWSCloudFormationDeletionPolicy ∧
    x'.AWSCloudFormationUpdateReplacePolicy = x.AWSCloudFormationUpdateReplacePolicy ∧
    x'.AWSCloudFormationDependsOn = x.AWSCloudFormationDependsOn ∧
    x'.AWSCloudFormationMetadata = x.AWSCloudFormationMetadata ∧
    x'.AWSCloudFormationCondition = x.AWSCloudFormationCondition := by
  unfold MLTransform_InputRecordTables.step at h
  by_cases hc : eqCI kv.1 "GlueTables" = true
  · rw [if_pos hc] at h
    rcases exceptMap_ok h with ⟨v, _, rfl⟩
    exact ⟨rfl, rfl, rfl, rfl, rfl⟩
  · rw [if_neg hc] at h
    cases h
    exact ⟨rfl, rfl, rfl, rfl, rfl⟩

theorem mlt_decodeMembers_envelope (ms : List (String × Json)) :
    ∀ x x' : MLTransform_InputRecordTables,
    MLTransform_InputRecordTables.decodeMembers x ms = .ok x' →
    (x'.AWSCloudFormationDeletionPolicy = x.AWSCloudFormationDeletionPolicy ∧
     x'.AWSCloudFormationUpdateReplacePolicy = x.AWSCloudFormationUpdateReplacePolicy ∧
     x'.AWSCloudFormationDependsOn = x.AWSCloudFormationDependsOn ∧
     x'.AWSCloudFormationMetadata = x.AWSCloudFormationMetadata ∧
     x'.AWSCloudFormationCondition = x.AWSCloudFormationCondition) := by
  induction ms with
  | nil => intro x x' h; cases h; exact ⟨rfl, rfl, rfl, rfl, rfl⟩
  | cons kv rest ih =>
    intro x x' h
    cases hs : MLTransform_InputRecordTables.step x kv with
    | error e => simp only [MLTransform_InputRecordTables.decodeMembers, hs] at h; cases h
    | ok x₁ =>
      simp only [MLTransform_InputRecordTables.decodeMembers, hs] at h
      have h1 := ih x₁ x' h
      have h2 := mltStep_envelope hs
      exact ⟨h1.1.trans h2.1, h1.2.1.trans h2.2.1, h1.2.2.1.trans h2.2.2.1,
        h1.2.2.2.1.trans h2.2.2.2.1, h1.2.2.2.2.trans h2.2.2.2.2⟩

/-- C10: property-subtype structs exclude the five envelope attributes from
JSON entirely: encoding emits none of those keys (whatever the envelope
fields hold), decoding never writes them, and a round trip through a fresh
value leaves them zero — they do not survive a round trip on subtypes. -/
theorem C10_subtype_envelope_excluded :
    (∀ v : Service_DeploymentController, ∀ k ∈ envelopeAttributeKeys,
      k ∉ v.MarshalJSON.keys) ∧
    (∀ w : MLTransform_InputRecordTables, ∀ k ∈ envelopeAttributeKeys,
      k ∉ w.MarshalJSON.keys) ∧
    (∀ (j : Json) (x x' : Service_DeploymentController),
      Service_DeploymentController.UnmarshalJSON x j = .ok x' →
      x'.AWSCloudFormationDeletionPolicy = x.AWSCloudFormationDeletionPolicy ∧
      x'.AWSCloudFormationUpdateReplacePolicy = x.AWSCloudFormationUpdateReplacePolicy ∧
      x'.AWSCloudFormationDependsOn = x.AWSCloudFormationDependsOn ∧
      x'.AWSCloudFormationMetadata = x.AWSCloudFormationMetadata ∧
      x'.AWSCloudFormationCondition = x.AWSCloudFormationCondition) ∧
    (∀ (j : Json) (y y' : MLTransform_InputRecordTables),
      MLTransform_InputRecordTables.UnmarshalJSON y j = .ok y' →
      y'.AWSCloudFormationDeletionPolicy = y.AWSCloudFormationDeletionPolicy ∧
      y'.AWSCloudFormationUpdateReplacePolicy = y.AWSCloudFormationUpdateReplacePolicy ∧
      y'.AWSCloudFormationDependsOn = y.AWSCloudFormationDependsOn ∧
      y'.AWSCloudFormationMetadata = y.AWSCloudFormationMetadata ∧
      y'.AWSCloudFormationCondition = y.AWSCloudFormationCondition) ∧
    (∀ v : Service_DeploymentController,
      Service_DeploymentController.UnmarshalJSON {} v.MarshalJSON =
        .ok { «Type» := normalizeOpt v.«Type» }) ∧
    (∀ w : MLTransform_InputRecordTables,
      MLTransform_InputRecordTables.UnmarshalJSON {} w.MarshalJSON =
        .ok { GlueTables := normalizeList w.GlueTables }) := by
  refine ⟨?_, ?_, ?_, ?_, ?_, ?_⟩
  · intro v k hk
    rcases hv : v.«Type» with _ | j <;>
      simp [Service_DeploymentController.MarshalJSON, optMember, Json.keys, hv] <;>
      fin_cases hk <;> decide
  · intro w k hk
    rcases hw : w.GlueTables with _ | (_ | ⟨x, xs⟩) <;>
      simp [MLTransform_InputRecordTables.MarshalJSON, listMember, Json.keys, hw] <;>
      fin_cases hk <;> decide
  · intro j x x' h
    cases j with
    | obj ms =>
      simp only [Service_DeploymentController.UnmarshalJSON] at h
      cases h
      exact sdc_foldl_envelope ms x
    | null =>
      simp only [Service_DeploymentController.UnmarshalJSON] at h
      cases h
      exact ⟨rfl, rfl, rfl, rfl, rfl⟩
    | bool b => cases h
    | num n => cases h
    | str s => cases h
    | arr xs => cases h
  · intro j y y' h
    cases j with
    | obj ms =>
      simp only [MLTransform_InputRecordTables.UnmarshalJSON] at h
      exact mlt_decodeMembers_envelope ms y y' h
    | null =>
      simp only [MLTransform_InputRecordTables.UnmarshalJSON] at h
      cases h
      exact ⟨rfl, rfl, rfl, rfl, rfl⟩
    | bool b => cases h
    | num n => cases h
    | str s => cases h
    | arr xs => cases h
  · intro v
    rcases hv : v.«Type» with _ | j
    · simp only [Service_DeploymentController.MarshalJSON, hv]; rfl
    · cases j <;> (simp only [Service_DeploymentController.MarshalJSON, hv]; rfl)
  · intro w
    rcases hw : w.GlueTables with _ | (_ | ⟨x, xs⟩) <;>
      (simp only [MLTransform_InputRecordTables.MarshalJSON, hw]; rfl)

/-- Witness for C9 (amended): decoding `{"Condition": "Z"}` into a receiver
with pre-existing `DependsOn` and `DeletionPolicy`. -/
theorem C9_receiver_frame_witness :
    ({ sampleReceiver with AWSCloudFormationCondition := "Z" } : DeploymentGroup).properties =
        sampleReceiver.properties ∧
    ((∀ kv ∈ [("Condition", Json.str "Z")], matchEnvField kv.1 ≠ some .dependsOn) →
      ({ sampleReceiver with AWSCloudFormationCondition := "Z" } :
          DeploymentGroup).AWSCloudFormationDependsOn =
        sampleReceiver.AWSCloudFormationDependsOn) ∧
    ((∀ kv ∈ [("Condition", Json.str "Z")], matchEnvField kv.1 ≠ some .metadata) →
      ({ sampleReceiver with AWSCloudFormationCondition := "Z" } :
          DeploymentGroup).AWSCloudFormationMetadata =
        sampleReceiver.AWSCloudFormationMetadata) ∧
    ((∀ kv ∈ [("Condition", Json.str "Z")], matchEnvField kv.1 ≠ some .deletionPolicy) →
      ({ sampleReceiver with AWSCloudFormationCondition := "Z" } :
          DeploymentGroup).AWSCloudFormationDeletionPolicy =
        sampleReceiver.AWSCloudFormationDeletionPolicy) ∧
    ((∀ kv ∈ [("Condition", Json.str "Z")], matchEnvField kv.1 ≠ some .updateReplacePolicy) →
      ({ sampleReceiver with AWSCloudFormationCondition := "Z" } :
          DeploymentGroup).AWSCloudFormationUpdateReplacePolicy =
        sampleReceiver.AWSCloudFormationUpdateReplacePolicy) ∧
    ((∀ kv ∈ [("Condition", Json.str "Z")], matchEnvField kv.1 ≠ some .condition) →
      ({ sampleReceiver with AWSCloudFormationCondition := "Z" } :
          DeploymentGroup).AWSCloudFormationCondition =
        sampleReceiver.AWSCloudFormationCondition) :=
  C9_receiver_frame sampleReceiver [("Condition", Json.str "Z")]
    { sampleReceiver with AWSCloudFormationCondition := "Z" } (by decide) rfl

/-- Witness for C10 at populated sample subtype values. -/
theorem C10_subtype_envelope_excluded_witness :
    ("DeletionPolicy" ∉ sampleController.MarshalJSON.keys) ∧
    ("DependsOn" ∉ sampleInputRecordTables.MarshalJSON.keys) ∧
    (sampleController.AWSCloudFormationDeletionPolicy =
        sampleController.AWSCloudFormationDeletionPolicy ∧
      sampleController.AWSCloudFormationUpdateReplacePolicy =
        sampleController.AWSCloudFormationUpdateReplacePolicy ∧
      sampleController.AWSCloudFormationDependsOn =
        sampleController.AWSCloudFormationDependsOn ∧
      sampleController.AWSCloudFormationMetadata =
        sampleController.AWSCloudFormationMetadata ∧
      sampleController.AWSCloudFormationCondition =
        sampleController.AWSCloudFormationCondition) ∧
    (Service_DeploymentController.UnmarshalJSON {} sampleController.MarshalJSON =
      .ok { «Type» := normalizeOpt sampleController.«Type» }) ∧
    (MLTransform_InputRecordTables.UnmarshalJSON {} sampleInputRecordTables.MarshalJSON =
      .ok { GlueTables := normalizeList sampleInputRecordTables.GlueTables }) :=
  ⟨C10_subtype_envelope_excluded.1 sampleController "DeletionPolicy" (by decide),
   C10_subtype_envelope_excluded.2.1 sampleInputRecordTables "DependsOn" (by decide),
   C10_subtype_envelope_excluded.2.2.1 (Json.obj []) sampleController sampleController rfl,
   C10_subtype_envelope_excluded.2.2.2.2.1 sampleController,
   C10_subtype_envelope_excluded.2.2.2.2.2 sampleInputRecordTables⟩

end GoFormation
